import Mathlib

/-!
Verification of the matching/reranking engine of the pet-adoption system
(`matchmaker/matcher.py`).

The Python source is shallowly embedded: every remote call (vector search,
batch scoring, explanation) is modelled by an oracle recording what the call
would return (`none` / `.error` standing for the Python exception paths),
floats are modelled by exact rationals, and Python strings are modelled by
Lean strings with list-based helpers mirroring `str.strip`, `str.split` and
truthiness.
-/

namespace Matchmaker

/-- Tunable from `matcher.py`: pets per scoring call. -/
def BATCH_SIZE : Nat := 3

/-- Tunable from `matcher.py`: trigger agent retry if best score is below this. -/
def LOW_CONFIDENCE_THRESHOLD : ℚ := 11/20

/-- Tunable from `matcher.py`: how many times the agent may widen the search. -/
def MAX_AGENT_ROUNDS : Nat := 2

/-- Embedding of the ORM `Pet` row: the attributes the matcher reads.
Nullable text columns carry `Option`; `id` is the stable identity key. -/
structure Pet where
  id : Nat
  name : String
  breed : String
  sex : String
  age_text : String
  size : String
  energy_level : String
  good_with_dogs : Option Bool
  good_with_cats : Option Bool
  good_with_children : Option Bool
  house_trained : Option Bool
  personality_description : Option String
deriving DecidableEq, Repr

/-- Embedding of `MatchQuery` (`models/schemas.py`). -/
structure MatchQuery where
  query : String
  species_filter : Option String
  max_results : Nat
deriving DecidableEq, Repr

/-- Embedding of `MatchResult` (`models/schemas.py`): the matcher always fills
`explanation` and `reasoning` with the same string. -/
structure MatchResult where
  pet : Pet
  similarity_score : ℚ
  match_percentage : ℤ
  explanation : String
  reasoning : String
deriving DecidableEq, Repr

/-- Embedding of `MatchResponse` (`models/schemas.py`). -/
structure MatchResponse where
  query : String
  results : List MatchResult
  reasoning_summary : Option String
deriving DecidableEq, Repr

/-- Python `str.strip()` on the matcher's strings (ASCII whitespace). -/
def pyStrip (s : String) : String :=
  ⟨((s.data.dropWhile Char.isWhitespace).reverse.dropWhile Char.isWhitespace).reverse⟩

/-- Python `s.split(".")[0]`: the characters before the first dot. -/
def pyFirstSegment (s : String) : String :=
  ⟨s.data.takeWhile (fun c => c ≠ '.')⟩

/-- Python `sep.join(parts)`. -/
def joinSep (sep : String) : List String → String
  | [] => ""
  | [x] => x
  | x :: xs => x ++ sep ++ joinSep sep xs

/-- Python `max(0.0, min(1.0, s))` from `_score_batch`. -/
def clamp01 (q : ℚ) : ℚ := max 0 (min 1 q)

/-- The pad/trim-then-clamp step of `_score_batch`:
`scores = (scores + [0.5] * len(pets))[: len(pets)]` followed by clamping. -/
def processBatch (raw : List ℚ) (k : Nat) : List ℚ :=
  ((raw ++ List.replicate k ((1:ℚ)/2)).take k).map clamp01

/-- Outcome of one scoring batch inside `_score_all_pets`: a successful batch
contributes processed scores (tagged `some`) and sets the success flag; a
failed batch (the `_score_batch` `None` return) contributes `none` sentinels. -/
def scoreChunk (res : Option (List ℚ)) (k : Nat) : List (Option ℚ) × Bool :=
  match res with
  | some raw => ((processBatch raw k).map some, true)
  | none => (List.replicate k none, false)

/-- The batch loop of `_score_all_pets`: pets are partitioned into chunks of
`BATCH_SIZE = 3` (mirroring `range(0, len(pets), BATCH_SIZE)`), batch `b` is
scored by the oracle `o b`, and the per-index results are keyed back in the
original order; the Bool is `llm_succeeded`. -/
def scoreBatches (o : Nat → Option (List ℚ)) : Nat → List Pet → List (Option ℚ) × Bool
  | _, [] => ([], false)
  | b, [_] => scoreChunk (o b) 1
  | b, [_, _] => scoreChunk (o b) 2
  | b, _ :: _ :: _ :: rest =>
    let head := scoreChunk (o b) 3
    let tail := scoreBatches o (b + 1) rest
    (head.1 ++ tail.1, head.2 || tail.2)

/-- The per-index score map of `_score_all_pets` with its `None` sentinels,
before the fallback fill-in. -/
def score_all_pets_raw (o : Nat → Option (List ℚ)) (pets : List Pet) :
    List (Option ℚ) × Bool :=
  scoreBatches o 0 pets

/-- The fill-in step of `_score_all_pets`: `None` entries receive the mean of
the valid scores, or `0.5` when there are none. -/
def fillScores (raw : List (Option ℚ)) : List ℚ :=
  let valid := raw.filterMap id
  let fallback := if valid.isEmpty then (1:ℚ)/2 else valid.sum / (valid.length : ℚ)
  raw.map (fun x => x.getD fallback)

/-- Embedding of `_score_all_pets`: returns the scores, one per candidate in
order, and the `llm_scored` flag. -/
def score_all_pets (o : Nat → Option (List ℚ)) (pets : List Pet) :
    List ℚ × Bool :=
  let rawOk := score_all_pets_raw o pets
  (fillScores rawOk.1, rawOk.2)

/-- Failure modes of one Ollama chat call plus JSON post-processing:
`timeout`/`connect` are the httpx errors, `malformed` is the `ValueError`
from structured-output recovery, `other` any other exception. The retry
decorator catches exactly the first three. -/
inductive CallErr where
  | timeout
  | connect
  | malformed
  | other
deriving DecidableEq, Repr

/-- The exception classes caught by `retry_with_backoff`
(`httpx.TimeoutException, httpx.ConnectError, ValueError`). -/
def retryableErr : CallErr → Bool
  | .timeout => true
  | .connect => true
  | .malformed => true
  | .other => false

/-- Trace of one run of a retried operation: its final outcome, how many
times the wrapped function was invoked, and the sequence of sleeps. -/
structure RetryTrace (A : Type) where
  result : Except CallErr A
  calls : Nat
  delays : List ℚ
deriving Repr

/-- The loop body of `retry_with_backoff`: attempt `attempt` with `remaining`
retries left; a retryable failure sleeps `delay` and retries with
`delay * factor`, a non-retryable failure propagates, exhaustion re-raises
the last error. `op` is the wrapped function, indexed by attempt number. -/
def retryAux (op : Nat → Except CallErr A) (attempt remaining : Nat)
    (delay factor : ℚ) : RetryTrace A :=
  match op attempt with
  | .ok a => ⟨.ok a, 1, []⟩
  | .error e =>
    if retryableErr e then
      match remaining with
      | 0 => ⟨.error e, 1, []⟩
      | r + 1 =>
        let t := retryAux op (attempt + 1) r (delay * factor) factor
        ⟨t.result, t.calls + 1, delay :: t.delays⟩
    else ⟨.error e, 1, []⟩

/-- Embedding of the `retry_with_backoff` decorator
(`max_retries`, `base_delay`, `backoff_factor`). -/
def retry_with_backoff (maxRetries : Nat) (baseDelay backoffFactor : ℚ)
    (op : Nat → Except CallErr A) : RetryTrace A :=
  retryAux op 0 maxRetries baseDelay backoffFactor

/-- The body of `_score_batch` as seen by its decorator. The whole scoring
attempt (chat call, JSON recovery, float conversion, pad/trim, clamping) sits
inside `try: ... except Exception: return None`, so the body never raises:
any failure of the chat/parse oracle becomes an `.ok none` sentinel. The
empty-pets guard returns `[]` before any call. -/
def scoreBatchBody (chat : Nat → Except CallErr (List ℚ)) (pets : List Pet) :
    Nat → Except CallErr (Option (List ℚ)) :=
  fun attempt =>
    if pets.isEmpty then .ok (some [])
    else
      .ok (match chat attempt with
        | .ok raw => some (processBatch raw pets.length)
        | .error _ => none)

/-- Embedding of `_score_batch`: the decorated body, run with
`max_retries = 2`, `base_delay = 1.0`, `backoff_factor = 2.0`. -/
def score_batch (chat : Nat → Except CallErr (List ℚ)) (pets : List Pet) :
    RetryTrace (Option (List ℚ)) :=
  retry_with_backoff 2 1 2 (scoreBatchBody chat pets)

/-- Embedding of `_pet_fallback_reasoning`: the deterministic fallback
explanation synthesized from the pet's own attributes. -/
def pet_fallback_reasoning (pet : Pet) : String :=
  let traits :=
    (if pet.energy_level ≠ "" ∧ pet.energy_level ≠ "unknown"
      then [pet.energy_level ++ "-energy"] else [])
    ++ (if pet.size ≠ "" ∧ pet.size ≠ "unknown"
      then [pet.size ++ "-sized"] else [])
  let desc := pet.personality_description.getD ""
  let firstSentence := pyStrip (pyFirstSegment desc)
  let personalitySnippet :=
    if desc ≠ "" ∧ 10 < firstSentence.length
      then " " ++ firstSentence ++ "." else ""
  let compatParts :=
    (if pet.good_with_children.getD false then ["children"] else [])
    ++ (if pet.good_with_dogs.getD false then ["dogs"] else [])
    ++ (if pet.good_with_cats.getD false then ["cats"] else [])
  let compatStr :=
    if compatParts.isEmpty then ""
      else " Gets along well with " ++ joinSep ", " compatParts ++ "."
  let traitStr := if traits.isEmpty then "" else " " ++ joinSep " " traits
  pet.name ++ " is a" ++ traitStr ++ " " ++ pet.breed
    ++ " who could be a great companion." ++ personalitySnippet ++ compatStr

/-- Embedding of `_explain_one`: a single (retry-free) explanation attempt.
The oracle carries the parsed `explanation` field when the call and parse
succeeded (`none` = any exception). A truthy value is returned stripped,
a falsy value or a failure falls back to `_pet_fallback_reasoning`. -/
def explain_one (call : Option String) (pet : Pet) : String :=
  match call with
  | some e => if e = "" then pet_fallback_reasoning pet else pyStrip e
  | none => pet_fallback_reasoning pet

/-- Oracles for one match request: `search topK speciesFilter` is what
`PetRepository.vector_search` returns for that invocation (pairs of pet and
similarity), `score round b` what batch `b` of the `_score_all_pets` call of
the given round yields (round 0 = initial pass, round `r ≥ 1` = widening
round `r`), `explain pos` the explanation call for list position `pos`. -/
structure MatchEnv where
  search : Nat → Option String → List (Pet × ℚ)
  score : Nat → Nat → Option (List ℚ)
  explain : Nat → Option String

/-- The mutable per-request pool of `match_pets`: `pets`, the parallel
similarity map, the relevance-score map, and the `llm_scored` flag.
Index `i` of each list corresponds to dict key `i` in the source. -/
structure MatchState where
  pets : List Pet
  sims : List ℚ
  rels : List ℚ
  llmScored : Bool

/-- Python `max(relevance_scores.values(), default=0.0)`. -/
def bestScore (s : MatchState) : ℚ :=
  match s.rels with
  | [] => 0
  | x :: xs => xs.foldl max x

/-- Embedding of `_agent_widen_search`: round `r` requests
`max_results * 4 * 2 ^ r` candidates with the species filter dropped. -/
def agent_widen_search (env : MatchEnv) (q : MatchQuery) (round : Nat) :
    List (Pet × ℚ) :=
  env.search (q.max_results * 4 * 2 ^ round) none

/-- One iteration of the widening loop body: widen, dedup against the pool
by pet id, score only the new candidates, merge. `none` means the iteration
hit one of the two `break`s (no candidates, or nothing new after dedup). -/
def stepRound (env : MatchEnv) (q : MatchQuery) (s : MatchState) (round : Nat) :
    Option MatchState :=
  let newCandidates := agent_widen_search env q round
  if newCandidates.isEmpty then none
  else
    let existingIds := s.pets.map Pet.id
    let newPairs := newCandidates.filter (fun c => !(existingIds.contains c.1.id))
    if newPairs.isEmpty then none
    else
      let newPets := newPairs.map Prod.fst
      let scored := score_all_pets (env.score round) newPets
      some ⟨s.pets ++ newPets, s.sims ++ newPairs.map Prod.snd,
            s.rels ++ scored.1, s.llmScored || scored.2⟩

/-- The widening `while` loop of `match_pets`, with the remaining round
budget as fuel (`fuel = MAX_AGENT_ROUNDS - round`); returns the final state
and the final `agent_round` counter. -/
def agentLoopAux (env : MatchEnv) (q : MatchQuery) (thr : ℚ) :
    Nat → MatchState → Nat → MatchState × Nat
  | 0, s, round => (s, round)
  | fuel + 1, s, round =>
    if bestScore s < thr then
      match stepRound env q s (round + 1) with
      | none => (s, round + 1)
      | some s2 => agentLoopAux env q thr fuel s2 (round + 1)
    else (s, round)

/-- Stable descending insertion by key: `i` goes before the first element
whose key is at most `key i`. -/
def insertDesc (key : Nat → ℚ) (i : Nat) : List Nat → List Nat
  | [] => [i]
  | j :: tl => if key j ≤ key i then i :: j :: tl else j :: insertDesc key i tl

/-- Python `sorted(range(n), key=..., reverse=True)`: a stable sort,
non-increasing by key, equal keys keeping their original order. -/
def sortIdxDesc (key : Nat → ℚ) (l : List Nat) : List Nat :=
  l.foldr (insertDesc key) []

/-- Python `round()` (banker's rounding, half to even) on an exact rational. -/
def pyRound (q : ℚ) : ℤ :=
  let f := ⌊q⌋
  let r := q - (f : ℚ)
  if r < 1/2 then f
  else if 1/2 < r then f + 1
  else if f % 2 = 0 then f else f + 1

/-- Python `round(x, 4)` from the blending step. -/
def round4 (q : ℚ) : ℚ := ((pyRound (q * 10000) : ℤ) : ℚ) / 10000

/-- Step 7 of `match_pets`: walk the ranked indices (with their list
position for the explanation lookup), blend the scores with the
`llm_scored`-dependent weights, and build the `MatchResult`s. -/
def buildResults (env : MatchEnv) (s : MatchState) : Nat → List Nat → List MatchResult
  | _, [] => []
  | pos, petIdx :: rest =>
    let pet := s.pets.getD petIdx ⟨0, "", "", "", "", "", "", none, none, none, none, none⟩
    let llmScore := s.rels.getD petIdx ((1:ℚ)/2)
    let vecScore := s.sims.getD petIdx 0
    let w : ℚ × ℚ := if s.llmScored then (7/10, 3/10) else (1/10, 9/10)
    let blended := round4 (w.1 * llmScore + w.2 * vecScore)
    let expl := explain_one (env.explain pos) pet
    ⟨pet, blended, pyRound (blended * 100), expl, expl⟩
      :: buildResults env s (pos + 1) rest

/-- Step 2 of `match_pets`: the initial vector search, requesting
`max_results * 3` candidates under the query's species filter. -/
def initialCandidates (env : MatchEnv) (q : MatchQuery) : List (Pet × ℚ) :=
  env.search (q.max_results * 3) q.species_filter

/-- Steps 2–3 of `match_pets`: the pool seeded from the initial candidates,
scored by the round-0 `_score_all_pets` call. -/
def initialState (env : MatchEnv) (q : MatchQuery) : MatchState :=
  let c := initialCandidates env q
  let scored := score_all_pets (env.score 0) (c.map Prod.fst)
  ⟨c.map Prod.fst, c.map Prod.snd, scored.1, scored.2⟩

/-- Step 4 of `match_pets`: the widening loop run to completion; the pool
it ends with and the final `agent_round` counter. -/
def finalState (env : MatchEnv) (q : MatchQuery) : MatchState × Nat :=
  agentLoopAux env q LOW_CONFIDENCE_THRESHOLD MAX_AGENT_ROUNDS
    (initialState env q) 0

/-- Step 5 of `match_pets`:
`sorted(range(len(pet_objects)), key=relevance_scores.get, reverse=True)[:max_results]`. -/
def rankedIndices (env : MatchEnv) (q : MatchQuery) : List Nat :=
  (sortIdxDesc (fun i => (finalState env q).1.rels.getD i 0)
      (List.range (finalState env q).1.pets.length)).take q.max_results

/-- The early-return response for an empty retrieval. -/
def noCandidatesResponse (q : MatchQuery) : MatchResponse :=
  ⟨q.query, [],
    some "No pets found matching your criteria. Try broadening your search."⟩

/-- Embedding of `match_pets`, returning the response together with the
final pool state, the ranked index list and the final `agent_round` counter
(the latter three are read off the same run for the statements below). -/
def match_pets_core (env : MatchEnv) (q : MatchQuery) :
    MatchResponse × MatchState × List Nat × Nat :=
  if (initialCandidates env q).isEmpty then
    (noCandidatesResponse q, ⟨[], [], [], false⟩, [], 0)
  else
    let s := (finalState env q).1
    let rounds := (finalState env q).2
    let ranked := rankedIndices env q
    let results := buildResults env s 0 ranked
    let agentNote :=
      if rounds = 0 then ""
      else " (agent widened search " ++ toString rounds ++ "x)"
    let scoringNote :=
      if s.llmScored then "" else " Scores based primarily on profile similarity."
    let summary :=
      "Found " ++ toString results.length ++ " great match"
        ++ (if results.length = 1 then "" else "es")
        ++ " for your lifestyle" ++ agentNote ++ "." ++ scoringNote
    (⟨q.query, results, some summary⟩, s, ranked, rounds)

/-- The public entry point: just the response. -/
def match_pets (env : MatchEnv) (q : MatchQuery) : MatchResponse :=
  (match_pets_core env q).1

/-! ### Concrete inputs used by the witnesses and counterexamples -/

/-- A small concrete pet. -/
def petOne : Pet :=
  ⟨1, "Rex", "Lab", "male", "2 years", "small", "low",
    none, none, none, none, none⟩

/-- A second concrete pet. -/
def petTwo : Pet :=
  ⟨2, "Ben", "Pug", "male", "3 years", "small", "low",
    none, none, none, none, none⟩

/-- A third concrete pet. -/
def petThree : Pet :=
  ⟨3, "Ada", "Cat", "female", "1 year", "small", "low",
    none, none, none, none, none⟩

/-- A fourth concrete pet. -/
def petFour : Pet :=
  ⟨4, "Tao", "Dog", "male", "4 years", "large", "high",
    none, none, none, none, none⟩

/-- Concrete pet for the fallback-text counterexample. -/
def petA : Pet :=
  ⟨1, "Momo", "Labrador", "male", "2 years", "medium", "high",
    none, none, none, none, none⟩

/-- Same attributes as `petA` except for `sex`. -/
def petB : Pet :=
  ⟨1, "Momo", "Labrador", "female", "2 years", "medium", "high",
    none, none, none, none, none⟩

/-- Environment where both candidates score well (no widening) but the
vector similarities run against the relevance order. -/
def envC1 : MatchEnv :=
  ⟨fun _ _ => [(petOne, 0), (petTwo, 1)],
   fun _ _ => some [4/5, 79/100],
   fun _ => none⟩

/-- Query used with `envC1`. -/
def qC1 : MatchQuery := ⟨"calm lap dog for a small apartment", none, 5⟩

/-- Environment where every scoring call fails and the widening round pulls
in a new candidate with a higher similarity than the initial pool's. The
initial retrieval asks for `2 * 3 = 6` candidates, widening round 1 asks for
`2 * 4 * 2 = 16`, round 2 for `32`. -/
def envC2 : MatchEnv :=
  ⟨fun k _ =>
      if k = 6 then [(petOne, 1/2)]
      else if k = 16 then [(petThree, 9/10)]
      else [],
   fun _ _ => none,
   fun _ => none⟩

/-- Query used with `envC2`. -/
def qC2 : MatchQuery := ⟨"a quiet companion animal", none, 2⟩

/-- Environment whose explanation model call returns a whitespace-only
explanation (truthy in Python, but stripping yields the empty string). -/
def envC8 : MatchEnv :=
  ⟨fun _ _ => [(petA, 9/10)],
   fun _ _ => some [4/5],
   fun _ => some " "⟩

/-- Query used with `envC8`. -/
def qC8 : MatchQuery := ⟨"a friendly dog for a family", none, 3⟩

/-- Environment whose retriever finds nothing. -/
def envEmpty : MatchEnv :=
  ⟨fun _ _ => [], fun _ _ => none, fun _ => none⟩

/-- Query used with `envEmpty`. -/
def qEmpty : MatchQuery := ⟨"anything at all please", none, 10⟩

/-- Scoring oracle where the first batch succeeds and the second fails. -/
def oracleC5 : Nat → Option (List ℚ) :=
  fun b => if b = 0 then some [4/5, 3/5, 1] else none

/-- Candidate pool of four pets (two batches) for `oracleC5`. -/
def petsC5 : List Pet := [petOne, petTwo, petThree, petFour]

/-- Chat oracle that fails (timeout) on attempt 0 and would succeed on
attempt 1 — the input on which a retrying `_score_batch` would recover. -/
def chatFailOk : Nat → Except CallErr (List ℚ) :=
  fun attempt => if attempt = 0 then .error .timeout else .ok [9/10]

/-! ### Lemmas about the scoring pass -/

theorem clamp01_bounds (q : ℚ) : 0 ≤ clamp01 q ∧ clamp01 q ≤ 1 := by
  constructor
  · exact le_max_left 0 _
  · simp only [clamp01, min_def, max_def]
    split <;> split <;> linarith

theorem processBatch_length (raw : List ℚ) (k : Nat) :
    (processBatch raw k).length = k := by
  simp [processBatch]

theorem processBatch_bounds (raw : List ℚ) (k : Nat) :
    ∀ x ∈ processBatch raw k, 0 ≤ x ∧ x ≤ 1 := by
  intro x hx
  simp only [processBatch, List.mem_map] at hx
  obtain ⟨y, _, rfl⟩ := hx
  exact clamp01_bounds y

theorem scoreChunk_length (res : Option (List ℚ)) (k : Nat) :
    (scoreChunk res k).1.length = k := by
  cases res <;> simp [scoreChunk, processBatch_length]

theorem scoreChunk_some_bounds (res : Option (List ℚ)) (k : Nat) :
    ∀ x ∈ (scoreChunk res k).1, ∀ v, x = some v → 0 ≤ v ∧ v ≤ 1 := by
  intro x hx v hv
  cases res with
  | none =>
    simp only [scoreChunk, List.mem_replicate] at hx
    simp [hx.2] at hv
  | some raw =>
    simp only [scoreChunk, List.mem_map] at hx
    obtain ⟨y, hy, rfl⟩ := hx
    obtain rfl : y = v := Option.some_inj.mp hv
    exact processBatch_bounds raw k _ hy

theorem scoreBatches_length (o : Nat → Option (List ℚ)) (b : Nat) (pets : List Pet) :
    (scoreBatches o b pets).1.length = pets.length := by
  induction b, pets using scoreBatches.induct o with
  | case1 b => simp [scoreBatches]
  | case2 b p => simp [scoreBatches, scoreChunk_length]
  | case3 b p p2 => simp [scoreBatches, scoreChunk_length]
  | case4 b p p2 p3 rest ih =>
    simp [scoreBatches, scoreChunk_length, ih]
    omega

theorem scoreBatches_some_bounds (o : Nat → Option (List ℚ)) (b : Nat)
    (pets : List Pet) :
    ∀ x ∈ (scoreBatches o b pets).1, ∀ v, x = some v → 0 ≤ v ∧ v ≤ 1 := by
  induction b, pets using scoreBatches.induct o with
  | case1 b => simp [scoreBatches]
  | case2 b p => exact fun x hx => scoreChunk_some_bounds (o b) 1 x hx
  | case3 b p p2 => exact fun x hx => scoreChunk_some_bounds (o b) 2 x hx
  | case4 b p p2 p3 rest ih =>
    intro x hx v hv
    simp only [scoreBatches, List.mem_append] at hx
    rcases hx with hx | hx
    · exact scoreChunk_some_bounds (o b) 3 x hx v hv
    · exact ih x hx v hv

theorem scoreBatches_all_none (o : Nat → Option (List ℚ)) (b : Nat)
    (pets : List Pet) (h : ∀ i, o i = none) :
    scoreBatches o b pets = (List.replicate pets.length none, false) := by
  induction b, pets using scoreBatches.induct o with
  | case1 b => simp [scoreBatches]
  | case2 b p => simp [scoreBatches, scoreChunk, h]
  | case3 b p p2 => simp [scoreBatches, scoreChunk, h, List.replicate]
  | case4 b p p2 p3 rest ih =>
    simp [scoreBatches, scoreChunk, h, ih, List.replicate_succ]

theorem scoreBatches_flag_some (o : Nat → Option (List ℚ)) (b : Nat)
    (pets : List Pet) (h : (scoreBatches o b pets).2 = true) :
    ∃ x ∈ (scoreBatches o b pets).1, x.isSome := by
  induction b, pets using scoreBatches.induct o with
  | case1 b => simp [scoreBatches] at h
  | case2 b p =>
    cases hb : o b with
    | none => simp [scoreBatches, scoreChunk, hb] at h
    | some raw =>
      refine ⟨some (clamp01 ((raw ++ [(1:ℚ)/2]).getD 0 0)), ?_, rfl⟩
      simp [scoreBatches, scoreChunk, hb, processBatch]
      cases raw <;> simp
  | case3 b p p2 =>
    cases hb : o b with
    | none => simp [scoreBatches, scoreChunk, hb] at h
    | some raw =>
      have h1 : (scoreChunk (o b) 2).1.length = 2 := scoreChunk_length _ _
      rcases hx : (scoreChunk (o b) 2).1 with _ | ⟨x, tl⟩
      · simp [hx] at h1
      · refine ⟨x, ?_, ?_⟩
        · simp [scoreBatches, hx]
        · rcases hx2 : x with _ | v
          · rw [hx2] at hx
            have := scoreChunk_some_bounds (o b) 2
            simp [scoreChunk, hb] at hx
            rcases (List.map_eq_cons_iff).mp hx with ⟨y, tl2, _, hy, _⟩
            simp at hy
          · rfl
  | case4 b p p2 p3 rest ih =>
    simp only [scoreBatches, Bool.or_eq_true] at h
    rcases h with h | h
    · cases hb : o b with
      | none => simp [scoreChunk, hb] at h
      | some raw =>
        have h1 : (scoreChunk (o b) 3).1.length = 3 := scoreChunk_length _ _
        rcases hx : (scoreChunk (o b) 3).1 with _ | ⟨x, tl⟩
        · simp [hx] at h1
        · refine ⟨x, ?_, ?_⟩
          · simp only [scoreBatches, List.mem_append]
            left
            simp [hx]
          · rcases hx2 : x with _ | v
            · rw [hx2] at hx
              simp [scoreChunk, hb] at hx
              rcases (List.map_eq_cons_iff).mp hx with ⟨y, tl2, _, hy, _⟩
              simp at hy
            · rfl
    · obtain ⟨x, hx, hsome⟩ := ih h
      refine ⟨x, ?_, hsome⟩
      simp only [scoreBatches, List.mem_append]
      right
      exact hx

theorem mean_bounds (l : List ℚ) (hne : l ≠ [])
    (h : ∀ x ∈ l, 0 ≤ x ∧ x ≤ 1) :
    0 ≤ l.sum / (l.length : ℚ) ∧ l.sum / (l.length : ℚ) ≤ 1 := by
  have hlen : (0 : ℚ) < (l.length : ℚ) := by
    exact_mod_cast List.length_pos.mpr hne
  have hsum0 : 0 ≤ l.sum := List.sum_nonneg (fun x hx => (h x hx).1)
  have hsum1 : l.sum ≤ (l.length : ℚ) := by
    have := List.sum_le_card_nsmul l 1 (fun x hx => (h x hx).2)
    simpa using this
  refine ⟨by positivity, ?_⟩
  rw [div_le_one hlen]
  exact hsum1

theorem fillScores_length (raw : List (Option ℚ)) :
    (fillScores raw).length = raw.length := by
  simp [fillScores]

theorem fillScores_bounds (raw : List (Option ℚ))
    (h : ∀ x ∈ raw, ∀ v, x = some v → 0 ≤ v ∧ v ≤ 1) :
    ∀ y ∈ fillScores raw, 0 ≤ y ∧ y ≤ 1 := by
  have hvalid : ∀ v ∈ raw.filterMap id, 0 ≤ v ∧ v ≤ 1 := by
    intro v hv
    obtain ⟨x, hx, hxv⟩ := List.mem_filterMap.mp hv
    exact h x hx v hxv
  have hfb : 0 ≤ (if (raw.filterMap id).isEmpty then (1:ℚ)/2
        else (raw.filterMap id).sum / ((raw.filterMap id).length : ℚ)) ∧
      (if (raw.filterMap id).isEmpty then (1:ℚ)/2
        else (raw.filterMap id).sum / ((raw.filterMap id).length : ℚ)) ≤ 1 := by
    split
    · norm_num
    · next hne =>
      exact mean_bounds _ (by simpa using hne) hvalid
  intro y hy
  simp only [fillScores, List.mem_map] at hy
  obtain ⟨x, hx, rfl⟩ := hy
  cases x with
  | none => simpa using hfb
  | some v => simpa using h _ hx v rfl

theorem fillScores_at_none (raw : List (Option ℚ)) (i : Nat)
    (h : raw[i]? = some none) :
    (fillScores raw)[i]? =
      some (if (raw.filterMap id).isEmpty then (1:ℚ)/2
        else (raw.filterMap id).sum / ((raw.filterMap id).length : ℚ)) := by
  simp [fillScores, List.getElem?_map, h]

theorem flag_valid_ne_nil (o : Nat → Option (List ℚ)) (pets : List Pet)
    (h : (score_all_pets_raw o pets).2 = true) :
    ((score_all_pets_raw o pets).1.filterMap id).isEmpty = false := by
  obtain ⟨x, hx, hsome⟩ := scoreBatches_flag_some o 0 pets h
  obtain ⟨v, rfl⟩ := Option.isSome_iff_exists.mp hsome
  have hv : v ∈ (score_all_pets_raw o pets).1.filterMap id :=
    List.mem_filterMap.mpr ⟨some v, hx, rfl⟩
  rcases hmem : (score_all_pets_raw o pets).1.filterMap id with _ | _
  · rw [hmem] at hv
    simp at hv
  · rfl

/-! ### Lemmas about the widening loop -/

theorem agentLoopAux_inv (env : MatchEnv) (q : MatchQuery) (thr : ℚ)
    (P : MatchState → Prop)
    (hstep : ∀ s r s2, P s → stepRound env q s r = some s2 → P s2) :
    ∀ fuel s round, P s → P (agentLoopAux env q thr fuel s round).1 := by
  intro fuel
  induction fuel with
  | zero => intro s round hs; exact hs
  | succ f ih =>
    intro s round hs
    by_cases hb : bestScore s < thr
    · rcases hst : stepRound env q s (round + 1) with _ | s2
      · simpa [agentLoopAux, hb, hst] using hs
      · have h2 := ih s2 (round + 1) (hstep s (round + 1) s2 hs hst)
        simpa [agentLoopAux, hb, hst] using h2
    · simpa [agentLoopAux, hb] using hs

theorem agentLoopAux_rounds_le (env : MatchEnv) (q : MatchQuery) (thr : ℚ) :
    ∀ fuel s round,
      (agentLoopAux env q thr fuel s round).2 ≤ round + fuel := by
  intro fuel
  induction fuel with
  | zero => intro s round; simp [agentLoopAux]
  | succ f ih =>
    intro s round
    by_cases hb : bestScore s < thr
    · rcases hst : stepRound env q s (round + 1) with _ | s2
      · simp [agentLoopAux, hb, hst]
      · have h2 := ih s2 (round + 1)
        simp only [agentLoopAux, hb, if_true, hst]
        omega
    · simp [agentLoopAux, hb]

theorem agentLoopAux_rounds_ge (env : MatchEnv) (q : MatchQuery) (thr : ℚ) :
    ∀ fuel s round,
      round ≤ (agentLoopAux env q thr fuel s round).2 := by
  intro fuel
  induction fuel with
  | zero => intro s round; simp [agentLoopAux]
  | succ f ih =>
    intro s round
    by_cases hb : bestScore s < thr
    · rcases hst : stepRound env q s (round + 1) with _ | s2
      · simp [agentLoopAux, hb, hst]
      · have h2 := ih s2 (round + 1)
        simp only [agentLoopAux, hb, if_true, hst]
        omega
    · simp [agentLoopAux, hb]

theorem agentLoopAux_exit (env : MatchEnv) (q : MatchQuery) (thr : ℚ) :
    ∀ fuel s round,
      thr ≤ bestScore (agentLoopAux env q thr fuel s round).1 ∨
      (agentLoopAux env q thr fuel s round).2 = round + fuel ∨
      stepRound env q (agentLoopAux env q thr fuel s round).1
        (agentLoopAux env q thr fuel s round).2 = none := by
  intro fuel
  induction fuel with
  | zero => intro s round; right; left; simp [agentLoopAux]
  | succ f ih =>
    intro s round
    by_cases hb : bestScore s < thr
    · rcases hst : stepRound env q s (round + 1) with _ | s2
      · right; right
        simp [agentLoopAux, hb, hst]
      · rcases ih s2 (round + 1) with h | h | h
        · left
          simpa [agentLoopAux, hb, hst] using h
        · right; left
          simp only [agentLoopAux, hb, if_true, hst]
          omega
        · right; right
          simpa [agentLoopAux, hb, hst] using h
    · left
      simp only [agentLoopAux, hb, if_false]
      exact le_of_not_lt hb

theorem stepRound_some_shape (env : MatchEnv) (q : MatchQuery)
    (s : MatchState) (round : Nat) (s2 : MatchState)
    (hst : stepRound env q s round = some s2) :
    s2 = ⟨s.pets ++ ((agent_widen_search env q round).filter
            (fun c => !((s.pets.map Pet.id).contains c.1.id))).map Prod.fst,
          s.sims ++ ((agent_widen_search env q round).filter
            (fun c => !((s.pets.map Pet.id).contains c.1.id))).map Prod.snd,
          s.rels ++ (score_all_pets (env.score round)
            (((agent_widen_search env q round).filter
              (fun c => !((s.pets.map Pet.id).contains c.1.id))).map Prod.fst)).1,
          s.llmScored || (score_all_pets (env.score round)
            (((agent_widen_search env q round).filter
              (fun c => !((s.pets.map Pet.id).contains c.1.id))).map Prod.fst)).2⟩ := by
  unfold stepRound at hst
  by_cases h1 : (agent_widen_search env q round).isEmpty
  · rw [if_pos h1] at hst
    cases hst
  · rw [if_neg h1] at hst
    by_cases h2 : ((agent_widen_search env q round).filter
        (fun c => !((s.pets.map Pet.id).contains c.1.id))).isEmpty
    · rw [if_pos h2] at hst
      cases hst
    · rw [if_neg h2] at hst
      exact (Option.some_inj.mp hst).symm

theorem agentLoopAux_stop (env : MatchEnv) (q : MatchQuery) (thr : ℚ)
    (fuel : Nat) (s : MatchState) (round : Nat) (hb : ¬ bestScore s < thr) :
    agentLoopAux env q thr fuel s round = (s, round) := by
  cases fuel <;> simp [agentLoopAux, hb]

theorem agentLoopAux_go (env : MatchEnv) (q : MatchQuery) (thr : ℚ)
    (fuel : Nat) (s : MatchState) (round : Nat) (s2 : MatchState)
    (hb : bestScore s < thr)
    (hst : stepRound env q s (round + 1) = some s2) :
    agentLoopAux env q thr (fuel + 1) s round =
      agentLoopAux env q thr fuel s2 (round + 1) := by
  simp [agentLoopAux, hb, hst]

theorem agentLoopAux_brk (env : MatchEnv) (q : MatchQuery) (thr : ℚ)
    (fuel : Nat) (s : MatchState) (round : Nat)
    (hb : bestScore s < thr)
    (hst : stepRound env q s (round + 1) = none) :
    agentLoopAux env q thr (fuel + 1) s round = (s, round + 1) := by
  simp [agentLoopAux, hb, hst]

theorem agentLoopAux_enter (env : MatchEnv) (q : MatchQuery) (thr : ℚ)
    (fuel : Nat) (s : MatchState) (round : Nat) (hb : bestScore s < thr) :
    round + 1 ≤ (agentLoopAux env q thr (fuel + 1) s round).2 := by
  rcases hst : stepRound env q s (round + 1) with _ | s2
  · simp [agentLoopAux, hb, hst]
  · have := agentLoopAux_rounds_ge env q thr fuel s2 (round + 1)
    simp only [agentLoopAux, hb, if_true, hst]
    omega

/-! ### Lemmas about the stable descending ranking -/

theorem insertDesc_mem (key : Nat → ℚ) (i : Nat) (l : List Nat) :
    ∀ x ∈ insertDesc key i l, x = i ∨ x ∈ l := by
  induction l with
  | nil => intro x hx; simp [insertDesc] at hx; exact Or.inl hx
  | cons j tl ih =>
    intro x hx
    by_cases hj : key j ≤ key i
    · simp only [insertDesc, hj, if_true, List.mem_cons] at hx
      rcases hx with h | h | h
      · exact Or.inl h
      · exact Or.inr (by simp [h])
      · exact Or.inr (by simp [h])
    · simp only [insertDesc, hj, if_false, List.mem_cons] at hx
      rcases hx with h | h
      · exact Or.inr (by simp [h])
      · rcases ih x h with h2 | h2
        · exact Or.inl h2
        · exact Or.inr (by simp [h2])

theorem insertDesc_pairwise (key : Nat → ℚ) (i : Nat) (l : List Nat)
    (hl : l.Pairwise (fun a b => key b ≤ key a)) :
    (insertDesc key i l).Pairwise (fun a b => key b ≤ key a) := by
  induction l with
  | nil => simp [insertDesc]
  | cons j tl ih =>
    rcases List.pairwise_cons.mp hl with ⟨hj, htl⟩
    by_cases hji : key j ≤ key i
    · simp only [insertDesc, hji, if_true]
      refine List.pairwise_cons.mpr ⟨?_, hl⟩
      intro x hx
      rcases List.mem_cons.mp hx with rfl | hx2
      · exact hji
      · exact le_trans (hj x hx2) hji
    · simp only [insertDesc, hji, if_false]
      refine List.pairwise_cons.mpr ⟨?_, ih htl⟩
      intro x hx
      rcases insertDesc_mem key i tl x hx with rfl | hx2
      · exact le_of_lt (lt_of_not_le hji)
      · exact hj x hx2

theorem sortIdxDesc_pairwise (key : Nat → ℚ) (l : List Nat) :
    (sortIdxDesc key l).Pairwise (fun a b => key b ≤ key a) := by
  induction l with
  | nil => simp [sortIdxDesc]
  | cons j tl ih => exact insertDesc_pairwise key j _ ih

theorem sortIdxDesc_const (key : Nat → ℚ) (c : ℚ) :
    ∀ l : List Nat, (∀ x ∈ l, key x = c) → sortIdxDesc key l = l := by
  intro l
  induction l with
  | nil => intro _; rfl
  | cons j tl ih =>
    intro h
    have htl : sortIdxDesc key tl = tl := ih (fun x hx => h x (by simp [hx]))
    have : sortIdxDesc key (j :: tl) = insertDesc key j (sortIdxDesc key tl) := rfl
    rw [this, htl]
    cases tl with
    | nil => rfl
    | cons j2 tl2 =>
      have hj : key j = c := h j (by simp)
      have hj2 : key j2 = c := h j2 (by simp)
      simp [insertDesc, hj, hj2]

theorem buildResults_length (env : MatchEnv) (s : MatchState) :
    ∀ pos l, (buildResults env s pos l).length = l.length := by
  intro pos l
  induction l generalizing pos with
  | nil => rfl
  | cons x tl ih => simp [buildResults, ih]

theorem buildResults_explanation (env : MatchEnv) (s : MatchState) :
    ∀ pos l r, r ∈ buildResults env s pos l →
      ∃ i pet, r.explanation = explain_one (env.explain i) pet := by
  intro pos l
  induction l generalizing pos with
  | nil => intro r hr; simp [buildResults] at hr
  | cons x tl ih =>
    intro r hr
    rcases List.mem_cons.mp hr with rfl | hr2
    · exact ⟨pos, _, rfl⟩
    · exact ih (pos + 1) r hr2

/-! ### String and misc helper lemmas -/

theorem str_data_append (a b : String) : (a ++ b).data = a.data ++ b.data := by
  cases a
  cases b
  rfl

theorem str_append_assoc (a b c : String) : a ++ b ++ c = a ++ (b ++ c) := by
  cases a
  cases b
  cases c
  exact congrArg String.mk (List.append_assoc _ _ _)

theorem str_length_append (a b : String) :
    (a ++ b).length = a.length + b.length := by
  cases a
  cases b
  exact List.length_append _ _

theorem str_ne_empty_of_length (s : String) (h : 0 < s.length) : s ≠ "" := by
  intro hc
  rw [hc] at h
  simp [String.length] at h

theorem fillScores_replicate_none (n : Nat) :
    fillScores (List.replicate n (none : Option ℚ)) =
      List.replicate n ((1:ℚ)/2) := by
  have h1 : (List.replicate n (none : Option ℚ)).filterMap id = [] := by
    induction n with
    | zero => rfl
    | succ k ih => simp [List.replicate_succ, ih]
  simp [fillScores, h1, List.map_replicate]

theorem score_all_pets_none (o : Nat → Option (List ℚ)) (pets : List Pet)
    (h : ∀ b, o b = none) :
    score_all_pets o pets = (List.replicate pets.length ((1:ℚ)/2), false) := by
  simp [score_all_pets, score_all_pets_raw, scoreBatches_all_none o 0 pets h,
    fillScores_replicate_none]

theorem foldl_max_replicate (c : ℚ) :
    ∀ k, (List.replicate k c).foldl max c = c := by
  intro k
  induction k with
  | zero => rfl
  | succ m ih => simpa [List.replicate_succ, max_self] using ih

theorem bestScore_of_rels_replicate (s : MatchState) (n : Nat) (c : ℚ)
    (hn : n ≠ 0) (h : s.rels = List.replicate n c) : bestScore s = c := by
  cases n with
  | zero => omega
  | succ k =>
    have h2 : s.rels = c :: List.replicate k c := by
      simpa [List.replicate_succ] using h
    simp only [bestScore, h2]
    exact foldl_max_replicate c k

theorem match_pets_core_ne (env : MatchEnv) (q : MatchQuery)
    (h : (initialCandidates env q).isEmpty = false) :
    (match_pets_core env q).2.1 = (finalState env q).1 ∧
    (match_pets_core env q).2.2.1 = rankedIndices env q ∧
    (match_pets_core env q).2.2.2 = (finalState env q).2 ∧
    (match_pets_core env q).1.results =
      buildResults env (finalState env q).1 0 (rankedIndices env q) := by
  refine ⟨?_, ?_, ?_, ?_⟩ <;> simp [match_pets_core, h]

theorem match_pets_core_empty (env : MatchEnv) (q : MatchQuery)
    (h : (initialCandidates env q).isEmpty = true) :
    match_pets_core env q =
      (noCandidatesResponse q, ⟨[], [], [], false⟩, [], 0) := by
  simp [match_pets_core, h]

theorem all_fail_inv_step (env : MatchEnv) (q : MatchQuery)
    (hsc : ∀ r b, env.score r b = none) :
    ∀ s round s2, (s.llmScored = false ∧ (∀ x ∈ s.rels, x = (1:ℚ)/2) ∧
        s.rels.length = s.pets.length ∧ s.sims.length = s.pets.length) →
      stepRound env q s round = some s2 →
      (s2.llmScored = false ∧ (∀ x ∈ s2.rels, x = (1:ℚ)/2) ∧
        s2.rels.length = s2.pets.length ∧ s2.sims.length = s2.pets.length) := by
  intro s round s2 hP hst
  obtain ⟨hflag, hall, hrl, hsl⟩ := hP
  have hs2 := stepRound_some_shape env q s round s2 hst
  have hsca := score_all_pets_none (env.score round)
    (((agent_widen_search env q round).filter
      (fun c => !((s.pets.map Pet.id).contains c.1.id))).map Prod.fst)
    (hsc round)
  refine ⟨?_, ?_, ?_, ?_⟩
  · rw [hs2]
    simp only [hsca]
    simp [hflag]
  · rw [hs2]
    intro x hx
    simp only [hsca, List.mem_append] at hx
    rcases hx with hx | hx
    · exact hall x hx
    · exact (List.eq_of_mem_replicate hx)
  · rw [hs2]
    simp only [hsca]
    simp [hrl]
  · rw [hs2]
    simp [hsl]

theorem all_fail_initial_state (env : MatchEnv) (q : MatchQuery)
    (hsc : ∀ r b, env.score r b = none) :
    (initialState env q).llmScored = false ∧
    (∀ x ∈ (initialState env q).rels, x = (1:ℚ)/2) ∧
    (initialState env q).rels.length = (initialState env q).pets.length ∧
    (initialState env q).sims.length = (initialState env q).pets.length := by
  have hs := score_all_pets_none (env.score 0)
    ((initialCandidates env q).map Prod.fst) (hsc 0)
  refine ⟨?_, ?_, ?_, ?_⟩
  · simp [initialState, hs]
  · intro x hx
    simp only [initialState, hs] at hx
    exact List.eq_of_mem_replicate hx
  · simp [initialState, hs]
  · simp [initialState]

theorem take_range_map_pairwise (sims : List ℚ) (k : Nat)
    (hp : List.Pairwise (fun a b : ℚ => b ≤ a) sims) :
    List.Pairwise (fun a b : ℚ => b ≤ a)
      (((List.range sims.length).take k).map (fun i => sims.getD i 0)) := by
  have hsub : ((List.range sims.length).take k).Sublist (List.range sims.length) :=
    List.take_sublist _ _
  have hplt : ((List.range sims.length).take k).Pairwise (· < ·) :=
    (List.pairwise_lt_range _).sublist hsub
  refine List.pairwise_map.mpr ?_
  refine hplt.imp_of_mem ?_
  intro a b ha hb hab
  have ha2 : a < sims.length := List.mem_range.mp (hsub.subset ha)
  have hb2 : b < sims.length := List.mem_range.mp (hsub.subset hb)
  rw [List.getD_eq_getElem sims 0 ha2, List.getD_eq_getElem sims 0 hb2]
  exact List.pairwise_iff_getElem.mp hp a b ha2 hb2 hab

theorem clamp01_of_bounds (q : ℚ) (h0 : 0 ≤ q) (h1 : q ≤ 1) :
    clamp01 q = q := by
  rw [clamp01, min_eq_right h1, max_eq_right h0]

theorem pyRound_intCast (n : ℤ) : pyRound ((n : ℚ)) = n := by
  simp only [pyRound, Int.floor_intCast, sub_self]
  norm_num

theorem pet_fallback_shape (pet : Pet) :
    ∃ t p c, pet_fallback_reasoning pet =
      pet.name ++ " is a" ++ t ++ " " ++ pet.breed ++
        " who could be a great companion." ++ p ++ c :=
  ⟨_, _, _, rfl⟩

theorem pet_fallback_ne_empty (pet : Pet) : pet_fallback_reasoning pet ≠ "" := by
  obtain ⟨t, p, c, hsh⟩ := pet_fallback_shape pet
  apply str_ne_empty_of_length
  rw [hsh]
  simp only [str_length_append]
  have h32 : (" who could be a great companion." : String).length = 32 := rfl
  omega

/-! ### Claim theorems -/

/-- C4: for every candidate pool of size N, `_score_all_pets` returns exactly
N relevance scores, one per candidate index 0..N-1 (positionally), and every
returned score lies in [0, 1]. -/
theorem scorer_count_and_bounds (o : Nat → Option (List ℚ)) (pets : List Pet) :
    (score_all_pets o pets).1.length = pets.length ∧
    ∀ x ∈ (score_all_pets o pets).1, 0 ≤ x ∧ x ≤ 1 := by
  constructor
  · simp [score_all_pets, score_all_pets_raw, fillScores_length,
      scoreBatches_length]
  · intro x hx
    exact fillScores_bounds _ (scoreBatches_some_bounds o 0 pets) x hx

/-- C5: if at least one scoring batch succeeds (`llm_scored` true), every
candidate whose own batch failed (a `None` sentinel at its index) receives
the arithmetic mean of all successfully scored candidates' scores. -/
theorem unscored_get_mean_of_scored (o : Nat → Option (List ℚ))
    (pets : List Pet) (i : Nat)
    (hflag : (score_all_pets o pets).2 = true)
    (hmiss : (score_all_pets_raw o pets).1[i]? = some none) :
    (score_all_pets o pets).1[i]? =
      some (((score_all_pets_raw o pets).1.filterMap id).sum /
        ((((score_all_pets_raw o pets).1.filterMap id).length : ℚ))) := by
  have hflag2 : (score_all_pets_raw o pets).2 = true := hflag
  have hne := flag_valid_ne_nil o pets hflag2
  have hfill := fillScores_at_none (score_all_pets_raw o pets).1 i hmiss
  rw [hne] at hfill
  simpa using hfill

/-- Witness for C5 at a concrete input: four pets, first batch scores
[0.8, 0.6, 1.0], second batch fails; the unscored fourth pet receives the
mean 0.8 of the three scored ones. -/
theorem unscored_get_mean_of_scored_witness :
    (score_all_pets oracleC5 petsC5).2 = true ∧
    (score_all_pets_raw oracleC5 petsC5).1[3]? = some none ∧
    (score_all_pets oracleC5 petsC5).1[3]? =
      some (((score_all_pets_raw oracleC5 petsC5).1.filterMap id).sum /
        ((((score_all_pets_raw oracleC5 petsC5).1.filterMap id).length : ℚ))) := by
  have h1 : (score_all_pets oracleC5 petsC5).2 = true := by
    simp [score_all_pets, score_all_pets_raw, petsC5, scoreBatches, scoreChunk,
      oracleC5]
  have h2 : (score_all_pets_raw oracleC5 petsC5).1[3]? = some none := by
    simp [score_all_pets_raw, petsC5, scoreBatches, scoreChunk, oracleC5,
      processBatch, clamp01]
  exact ⟨h1, h2, unscored_get_mean_of_scored oracleC5 petsC5 3 h1 h2⟩

/-- C6: the widening loop, as run by `match_pets` (threshold
`LOW_CONFIDENCE_THRESHOLD`, budget `MAX_AGENT_ROUNDS = 2`), performs at most
`MAX_AGENT_ROUNDS` rounds, and on exit either the best relevance score has
reached the threshold, or the round limit was hit, or the last widening
attempt produced no new candidates (`stepRound` returned `none`). -/
theorem widening_loop_bounded_and_exits (env : MatchEnv) (q : MatchQuery)
    (s : MatchState) :
    (agentLoopAux env q LOW_CONFIDENCE_THRESHOLD MAX_AGENT_ROUNDS s 0).2 ≤
      MAX_AGENT_ROUNDS ∧
    (LOW_CONFIDENCE_THRESHOLD ≤
        bestScore (agentLoopAux env q LOW_CONFIDENCE_THRESHOLD MAX_AGENT_ROUNDS s 0).1 ∨
      (agentLoopAux env q LOW_CONFIDENCE_THRESHOLD MAX_AGENT_ROUNDS s 0).2 =
        MAX_AGENT_ROUNDS ∨
      stepRound env q (agentLoopAux env q LOW_CONFIDENCE_THRESHOLD MAX_AGENT_ROUNDS s 0).1
        (agentLoopAux env q LOW_CONFIDENCE_THRESHOLD MAX_AGENT_ROUNDS s 0).2 = none) := by
  constructor
  · simpa using agentLoopAux_rounds_le env q LOW_CONFIDENCE_THRESHOLD
      MAX_AGENT_ROUNDS s 0
  · simpa using agentLoopAux_exit env q LOW_CONFIDENCE_THRESHOLD
      MAX_AGENT_ROUNDS s 0

/-- C9: if the retriever returns zero candidates, `match_pets` returns an
empty results list and a non-null (non-empty) explanatory
`reasoning_summary`, without raising. -/
theorem no_candidates_empty_response (env : MatchEnv) (q : MatchQuery)
    (h : env.search (q.max_results * 3) q.species_filter = []) :
    (match_pets env q).results = [] ∧
    (match_pets env q).reasoning_summary =
      some "No pets found matching your criteria. Try broadening your search." ∧
    "No pets found matching your criteria. Try broadening your search." ≠ "" := by
  have hempty : (initialCandidates env q).isEmpty = true := by
    simp [initialCandidates, h]
  have hc := match_pets_core_empty env q hempty
  refine ⟨?_, ?_, by decide⟩
  · simp [match_pets, hc, noCandidatesResponse]
  · simp [match_pets, hc, noCandidatesResponse]

/-- Witness for C9: a retriever that finds nothing yields the empty,
explained response. -/
theorem no_candidates_empty_response_witness :
    envEmpty.search (qEmpty.max_results * 3) qEmpty.species_filter = [] ∧
    ((match_pets envEmpty qEmpty).results = [] ∧
      (match_pets envEmpty qEmpty).reasoning_summary =
        some "No pets found matching your criteria. Try broadening your search." ∧
      "No pets found matching your criteria. Try broadening your search." ≠ "") :=
  ⟨rfl, no_candidates_empty_response envEmpty qEmpty rfl⟩

/-- C10: if every round-0 scoring batch fails, every candidate's fallback
relevance score is exactly 0.5, which is strictly below
`LOW_CONFIDENCE_THRESHOLD = 0.55`; hence with a non-empty initial pool the
agent performs at least one widening round before the response is built. -/
theorem all_fail_triggers_widening (env : MatchEnv) (q : MatchQuery)
    (hne : initialCandidates env q ≠ [])
    (hsc : ∀ b, env.score 0 b = none) :
    (initialState env q).rels =
      List.replicate (initialState env q).pets.length ((1:ℚ)/2) ∧
    ((1:ℚ)/2) < LOW_CONFIDENCE_THRESHOLD ∧
    1 ≤ (match_pets_core env q).2.2.2 := by
  have hs := score_all_pets_none (env.score 0)
    ((initialCandidates env q).map Prod.fst) hsc
  have hrels : (initialState env q).rels =
      List.replicate (initialState env q).pets.length ((1:ℚ)/2) := by
    simp [initialState, hs]
  have hfalse : (initialCandidates env q).isEmpty = false := by
    rcases hi : initialCandidates env q with _ | ⟨c, tl⟩
    · exact absurd hi hne
    · rfl
  have hlen : (initialState env q).pets.length ≠ 0 := by
    simp only [initialState]
    rcases hi : initialCandidates env q with _ | ⟨c, tl⟩
    · exact absurd hi hne
    · simp
  have hb : bestScore (initialState env q) < LOW_CONFIDENCE_THRESHOLD := by
    rw [bestScore_of_rels_replicate (initialState env q)
      (initialState env q).pets.length ((1:ℚ)/2) hlen hrels]
    norm_num [LOW_CONFIDENCE_THRESHOLD]
  have henter := agentLoopAux_enter env q LOW_CONFIDENCE_THRESHOLD 1
    (initialState env q) 0 hb
  have hrounds : 1 ≤ (finalState env q).2 := by
    simpa [finalState, MAX_AGENT_ROUNDS] using henter
  obtain ⟨-, -, h3, -⟩ := match_pets_core_ne env q hfalse
  rw [h3]
  exact ⟨hrels, by norm_num [LOW_CONFIDENCE_THRESHOLD], hrounds⟩

/-- Witness for C10: with `envC2` (all scoring calls fail, one initial
candidate) the agent runs at least one widening round. -/
theorem all_fail_triggers_widening_witness :
    initialCandidates envC2 qC2 ≠ [] ∧
    (∀ b, envC2.score 0 b = none) ∧
    ((initialState envC2 qC2).rels =
        List.replicate (initialState envC2 qC2).pets.length ((1:ℚ)/2) ∧
      ((1:ℚ)/2) < LOW_CONFIDENCE_THRESHOLD ∧
      1 ≤ (match_pets_core envC2 qC2).2.2.2) := by
  have h1 : initialCandidates envC2 qC2 ≠ [] := by
    simp [initialCandidates, envC2, qC2]
  exact ⟨h1, fun b => rfl,
    all_fail_triggers_widening envC2 qC2 h1 (fun b => rfl)⟩

/-- C7: assuming the retriever never returns the same pet twice within one
call (rows of one query are distinct), the candidate pool contains no two
candidates with the same pet id — both after each widening round's merge
(step preservation) and in the final pool of the whole request. -/
theorem candidate_pool_ids_nodup (env : MatchEnv) (q : MatchQuery)
    (hsearch : ∀ k sp, ((env.search k sp).map (fun c => c.1.id)).Nodup) :
    (∀ s round s2, (s.pets.map Pet.id).Nodup →
      stepRound env q s round = some s2 → (s2.pets.map Pet.id).Nodup) ∧
    ((match_pets_core env q).2.1.pets.map Pet.id).Nodup := by
  have hstep : ∀ s round s2, (s.pets.map Pet.id).Nodup →
      stepRound env q s round = some s2 → (s2.pets.map Pet.id).Nodup := by
    intro s round s2 hs hst
    have hs2 := stepRound_some_shape env q s round s2 hst
    have hpets : s2.pets = s.pets ++
        ((agent_widen_search env q round).filter
          (fun c => !((s.pets.map Pet.id).contains c.1.id))).map Prod.fst := by
      rw [hs2]
    rw [hpets, List.map_append, List.nodup_append]
    refine ⟨hs, ?_, ?_⟩
    · have hsub : (((agent_widen_search env q round).filter
            (fun c => !((s.pets.map Pet.id).contains c.1.id))).map
              (fun c => c.1.id)).Sublist
          ((agent_widen_search env q round).map (fun c => c.1.id)) :=
        List.Sublist.map _ (List.filter_sublist _)
      have hnd := hsearch (q.max_results * 4 * 2 ^ round) none
      have hnd2 : (((agent_widen_search env q round).filter
          (fun c => !((s.pets.map Pet.id).contains c.1.id))).map
            (fun c => c.1.id)).Nodup := List.Nodup.sublist hsub hnd
      simpa [List.map_map, Function.comp] using hnd2
    · intro a ha hb
      simp only [List.map_map, List.mem_map, Function.comp] at hb
      obtain ⟨c, hc, rfl⟩ := hb
      have hcf := (List.mem_filter.mp hc).2
      simp only [Bool.not_eq_true'] at hcf
      have hnm : c.1.id ∉ s.pets.map Pet.id := by simpa using hcf
      exact hnm ha
  refine ⟨hstep, ?_⟩
  by_cases hempty : (initialCandidates env q).isEmpty
  · rw [match_pets_core_empty env q hempty]
    simp
  · obtain ⟨h1, -, -, -⟩ :=
      match_pets_core_ne env q (by simpa using Bool.of_not_eq_true hempty)
    rw [h1]
    have hinit : ((initialState env q).pets.map Pet.id).Nodup := by
      have := hsearch (q.max_results * 3) q.species_filter
      simpa [initialState, initialCandidates, List.map_map, Function.comp]
        using this
    exact agentLoopAux_inv env q LOW_CONFIDENCE_THRESHOLD
      (fun s => (s.pets.map Pet.id).Nodup) hstep MAX_AGENT_ROUNDS
      (initialState env q) 0 hinit

/-- Witness for C7 at `envC2`/`qC2`: each retrieval is duplicate-free, and
the final pool ids are duplicate-free. -/
theorem candidate_pool_ids_nodup_witness :
    (∀ k sp, ((envC2.search k sp).map (fun c => c.1.id)).Nodup) ∧
    ((∀ s round s2, (s.pets.map Pet.id).Nodup →
        stepRound envC2 qC2 s round = some s2 → (s2.pets.map Pet.id).Nodup) ∧
      ((match_pets_core envC2 qC2).2.1.pets.map Pet.id).Nodup) := by
  have h : ∀ k sp, ((envC2.search k sp).map (fun c => c.1.id)).Nodup := by
    intro k sp
    simp only [envC2]
    split
    · simp
    · split <;> simp
  exact ⟨h, candidate_pool_ids_nodup envC2 qC2 h⟩

/-- C2 (amended): if every batch-scoring call fails, `llm_scored` is false
and the ranking degenerates to the stable original candidate-pool order
(`ranked = range(n)[:max_results]`); consequently the returned results
follow the order by vector similarity alone exactly when the pool's
similarity sequence is non-increasing (e.g. when widening adds nothing). -/
theorem all_fail_flag_false_and_pool_order (env : MatchEnv) (q : MatchQuery)
    (hsc : ∀ r b, env.score r b = none) :
    (match_pets_core env q).2.1.llmScored = false ∧
    (match_pets_core env q).2.2.1 =
      (List.range (match_pets_core env q).2.1.pets.length).take q.max_results ∧
    (List.Pairwise (fun a b : ℚ => b ≤ a) (match_pets_core env q).2.1.sims →
      List.Pairwise (fun a b : ℚ => b ≤ a)
        ((match_pets_core env q).2.2.1.map
          (fun i => (match_pets_core env q).2.1.sims.getD i 0))) := by
  by_cases hempty : (initialCandidates env q).isEmpty
  · rw [match_pets_core_empty env q hempty]
    refine ⟨rfl, by simp, ?_⟩
    intro _
    simp
  · obtain ⟨h1, h2, -, -⟩ :=
      match_pets_core_ne env q (by simpa using Bool.of_not_eq_true hempty)
    have hfin := agentLoopAux_inv env q LOW_CONFIDENCE_THRESHOLD
      (fun s => s.llmScored = false ∧ (∀ x ∈ s.rels, x = (1:ℚ)/2) ∧
        s.rels.length = s.pets.length ∧ s.sims.length = s.pets.length)
      (all_fail_inv_step env q hsc) MAX_AGENT_ROUNDS (initialState env q) 0
      (all_fail_initial_state env q hsc)
    obtain ⟨hflag, hall, hrl, hsl⟩ := hfin
    have hfs : agentLoopAux env q LOW_CONFIDENCE_THRESHOLD MAX_AGENT_ROUNDS
        (initialState env q) 0 = finalState env q := rfl
    rw [hfs] at hflag hall hrl hsl
    have hconst : ∀ x ∈ List.range (finalState env q).1.pets.length,
        (finalState env q).1.rels.getD x 0 = (1:ℚ)/2 := by
      intro x hx
      have hx2 : x < (finalState env q).1.rels.length := by
        rw [hrl]
        exact List.mem_range.mp hx
      rw [List.getD_eq_getElem _ 0 hx2]
      exact hall _ (List.getElem_mem hx2)
    have hranked : rankedIndices env q =
        (List.range (finalState env q).1.pets.length).take q.max_results := by
      rw [rankedIndices,
        sortIdxDesc_const (fun i => (finalState env q).1.rels.getD i 0)
          ((1:ℚ)/2) (List.range (finalState env q).1.pets.length) hconst]
    rw [h1, h2]
    refine ⟨hflag, hranked, ?_⟩
    intro hp
    rw [hranked, ← hsl]
    exact take_range_map_pairwise (finalState env q).1.sims q.max_results hp

/-- Witness for C2 (amended): `envC2` has every scoring call failing; the
instantiated conclusion of the amended claim holds there. -/
theorem all_fail_flag_false_and_pool_order_witness :
    (∀ r b, envC2.score r b = none) ∧
    ((match_pets_core envC2 qC2).2.1.llmScored = false ∧
      (match_pets_core envC2 qC2).2.2.1 =
        (List.range (match_pets_core envC2 qC2).2.1.pets.length).take
          qC2.max_results ∧
      (List.Pairwise (fun a b : ℚ => b ≤ a) (match_pets_core envC2 qC2).2.1.sims →
        List.Pairwise (fun a b : ℚ => b ≤ a)
          ((match_pets_core envC2 qC2).2.2.1.map
            (fun i => (match_pets_core envC2 qC2).2.1.sims.getD i 0)))) :=
  ⟨fun _ _ => rfl,
    all_fail_flag_false_and_pool_order envC2 qC2 (fun _ _ => rfl)⟩

/-- C1 (amended): for every query `match_pets` returns at most
`query.max_results` results, and the results (one per ranked index) are
ordered non-increasingly by the LLM relevance score used for ranking; the
blended score carried in `MatchResult.similarity_score` is not guaranteed
to be non-increasing. -/
theorem results_bounded_and_rel_ordered (env : MatchEnv) (q : MatchQuery) :
    (match_pets env q).results.length ≤ q.max_results ∧
    (match_pets env q).results.length = (match_pets_core env q).2.2.1.length ∧
    List.Pairwise
      (fun i j => (match_pets_core env q).2.1.rels.getD j 0 ≤
        (match_pets_core env q).2.1.rels.getD i 0)
      (match_pets_core env q).2.2.1 := by
  by_cases hempty : (initialCandidates env q).isEmpty
  · have hc := match_pets_core_empty env q hempty
    refine ⟨?_, ?_, ?_⟩ <;>
      simp [match_pets, hc, noCandidatesResponse]
  · obtain ⟨h1, h2, -, h4⟩ :=
      match_pets_core_ne env q (by simpa using Bool.of_not_eq_true hempty)
    have hlen : (match_pets env q).results.length = (rankedIndices env q).length := by
      rw [match_pets, h4]
      exact buildResults_length env (finalState env q).1 0 (rankedIndices env q)
    refine ⟨?_, ?_, ?_⟩
    · rw [hlen, rankedIndices]
      exact List.length_take_le _ _
    · rw [hlen, h2]
    · rw [h1, h2, rankedIndices]
      exact (sortIdxDesc_pairwise
        (fun i => (finalState env q).1.rels.getD i 0) _).sublist
        (List.take_sublist _ _)

/-- C3 (code evaluation): `_score_batch` swallows every exception inside its
own `try/except` and returns the `None` sentinel, so the `retry_with_backoff`
decorator around it never observes a retryable error: every batch-scoring
call performs exactly one attempt and sleeps no backoff delays, even on an
input whose first chat attempt fails and whose second would succeed — while
the decorator itself, applied directly to that chat call, would retry with
the documented backoff (second attempt after a 1-second delay). -/
theorem score_batch_single_attempt :
    (∀ chat pets, (score_batch chat pets).calls = 1 ∧
      (score_batch chat pets).delays = []) ∧
    (score_batch chatFailOk [petOne]).result = .ok none ∧
    chatFailOk 0 = .error .timeout ∧
    chatFailOk 1 = .ok [9/10] ∧
    (retry_with_backoff 2 1 2 chatFailOk).result = .ok [9/10] ∧
    (retry_with_backoff 2 1 2 chatFailOk).calls = 2 ∧
    (retry_with_backoff 2 1 2 chatFailOk).delays = [1] := by
  refine ⟨?_, rfl, rfl, rfl, rfl, rfl, rfl⟩
  intro chat pets
  cases h : pets.isEmpty <;>
    simp [score_batch, retry_with_backoff, retryAux, scoreBatchBody, h]

/-- C8 (amended): the deterministic fallback explanation is never empty and
always references concrete attributes of the specific candidate (its name
and its breed appear in the text); every explanation the matcher attaches is
either this fallback or the model's text stripped of whitespace (the latter
can be empty when the model returned whitespace only); candidates differing
only in attributes the fallback does not use (such as `sex`) can share
identical fallback text. -/
theorem fallback_nonempty_and_specific (pet : Pet) (call : Option String) :
    pet_fallback_reasoning pet ≠ "" ∧
    (∃ r, pet_fallback_reasoning pet = pet.name ++ r) ∧
    (∃ a b, pet_fallback_reasoning pet = a ++ (pet.breed ++ b)) ∧
    (explain_one call pet = pet_fallback_reasoning pet ∨
      ∃ e, call = some e ∧ e ≠ "" ∧ explain_one call pet = pyStrip e) := by
  obtain ⟨t, p, c, hsh⟩ := pet_fallback_shape pet
  refine ⟨pet_fallback_ne_empty pet, ?_, ?_, ?_⟩
  · refine ⟨" is a" ++ (t ++ (" " ++ (pet.breed ++
      (" who could be a great companion." ++ (p ++ c))))), ?_⟩
    rw [hsh]
    simp [str_append_assoc]
  · refine ⟨pet.name ++ (" is a" ++ (t ++ " ")),
      " who could be a great companion." ++ (p ++ c), ?_⟩
    rw [hsh]
    simp [str_append_assoc]
  · cases call with
    | none => exact Or.inl rfl
    | some e =>
      by_cases he : e = ""
      · exact Or.inl (by simp [explain_one, he])
      · exact Or.inr ⟨e, rfl, he, by simp [explain_one, he]⟩

/-- C1 (counterexample): with `envC1`/`qC1` (both scoring batches succeed,
relevance 0.8 vs 0.79, vector similarities 0 vs 1) the returned blended
scores are [0.56, 0.853] — strictly increasing, so the results list is not
sorted non-increasingly by `MatchResult.similarity_score`. -/
theorem blended_order_violation :
    (match_pets envC1 qC1).results.map MatchResult.similarity_score =
      [14/25, 853/1000] ∧
    ¬ List.Pairwise (fun a b : ℚ => b ≤ a)
      ((match_pets envC1 qC1).results.map MatchResult.similarity_score) := by
  have hc1 : clamp01 ((4:ℚ)/5) = 4/5 :=
    clamp01_of_bounds _ (by norm_num) (by norm_num)
  have hc2 : clamp01 ((79:ℚ)/100) = 79/100 :=
    clamp01_of_bounds _ (by norm_num) (by norm_num)
  have hsap : score_all_pets (envC1.score 0) [petOne, petTwo] =
      ([4/5, 79/100], true) := by
    calc score_all_pets (envC1.score 0) [petOne, petTwo]
        = (fillScores [some (clamp01 ((4:ℚ)/5)), some (clamp01 ((79:ℚ)/100))],
            true) := rfl
      _ = (fillScores [some ((4:ℚ)/5), some ((79:ℚ)/100)], true) := by
            rw [hc1, hc2]
      _ = ([4/5, 79/100], true) := rfl
  have hs0 : initialState envC1 qC1 =
      ⟨[petOne, petTwo], [0, 1], [4/5, 79/100], true⟩ := by
    calc initialState envC1 qC1
        = ⟨[petOne, petTwo], [0, 1],
            (score_all_pets (envC1.score 0) [petOne, petTwo]).1,
            (score_all_pets (envC1.score 0) [petOne, petTwo]).2⟩ := rfl
      _ = ⟨[petOne, petTwo], [0, 1], [4/5, 79/100], true⟩ := by rw [hsap]
  have hbestval : bestScore ⟨[petOne, petTwo], [0, 1], [4/5, 79/100], true⟩ =
      max ((4:ℚ)/5) (79/100) := rfl
  have hbest : ¬ bestScore ⟨[petOne, petTwo], [0, 1], [4/5, 79/100], true⟩ <
      LOW_CONFIDENCE_THRESHOLD := by
    rw [hbestval, max_eq_left (by norm_num)]
    norm_num [LOW_CONFIDENCE_THRESHOLD]
  have hfs : finalState envC1 qC1 =
      (⟨[petOne, petTwo], [0, 1], [4/5, 79/100], true⟩, 0) := by
    rw [finalState, hs0]
    exact agentLoopAux_stop envC1 qC1 LOW_CONFIDENCE_THRESHOLD
      MAX_AGENT_ROUNDS _ 0 hbest
  have hsort : sortIdxDesc
      (fun i => ([4/5, 79/100] : List ℚ).getD i 0) [0, 1] = [0, 1] := by
    show (if ((79:ℚ)/100 ≤ 4/5) then [0, 1] else [1, 0]) = [0, 1]
    rw [if_pos (by norm_num)]
  have hrk : rankedIndices envC1 qC1 = [0, 1] := by
    simp only [rankedIndices, hfs]
    show (sortIdxDesc (fun i => ([4/5, 79/100] : List ℚ).getD i 0)
      [0, 1]).take 5 = [0, 1]
    rw [hsort]
    rfl
  have hne : (initialCandidates envC1 qC1).isEmpty = false := rfl
  obtain ⟨-, -, -, h4⟩ := match_pets_core_ne envC1 qC1 hne
  have hres : (match_pets envC1 qC1).results =
      buildResults envC1 ⟨[petOne, petTwo], [0, 1], [4/5, 79/100], true⟩
        0 [0, 1] := by
    rw [match_pets, h4, hrk, hfs]
  have hmap : (match_pets envC1 qC1).results.map MatchResult.similarity_score =
      [round4 ((7:ℚ)/10 * (4/5) + 3/10 * 0),
       round4 ((7:ℚ)/10 * (79/100) + 3/10 * 1)] := by
    rw [hres]
    rfl
  have hr1 : round4 ((7:ℚ)/10 * (4/5) + 3/10 * 0) = 14/25 := by
    have harg : ((7:ℚ)/10 * (4/5) + 3/10 * 0) * 10000 = ((5600 : ℤ) : ℚ) := by
      norm_num
    rw [round4, harg, pyRound_intCast]
    norm_num
  have hr2 : round4 ((7:ℚ)/10 * (79/100) + 3/10 * 1) = 853/1000 := by
    have harg : ((7:ℚ)/10 * (79/100) + 3/10 * 1) * 10000 = ((8530 : ℤ) : ℚ) := by
      norm_num
    rw [round4, harg, pyRound_intCast]
    norm_num
  have hfinal : (match_pets envC1 qC1).results.map MatchResult.similarity_score =
      [14/25, 853/1000] := by
    rw [hmap, hr1, hr2]
  refine ⟨hfinal, ?_⟩
  rw [hfinal]
  intro hp
  have := (List.pairwise_cons.mp hp).1 (853/1000) (by simp)
  norm_num at this

/-- C2 (counterexample): with `envC2`/`qC2`, every batch-scoring call fails,
yet the widening round merges a new candidate (similarity 0.9) behind the
initial one (similarity 0.5); the returned order carries vector similarities
[0.5, 0.9], which is not the order by vector similarity alone. -/
theorem similarity_order_violation :
    (∀ r b, envC2.score r b = none) ∧
    ((match_pets_core envC2 qC2).2.2.1.map
      (fun i => (match_pets_core envC2 qC2).2.1.sims.getD i 0)) =
        [1/2, 9/10] ∧
    ¬ List.Pairwise (fun a b : ℚ => b ≤ a)
      ((match_pets_core envC2 qC2).2.2.1.map
        (fun i => (match_pets_core envC2 qC2).2.1.sims.getD i 0)) := by
  have hb0 : bestScore ⟨[petOne], [1/2], [1/2], false⟩ <
      LOW_CONFIDENCE_THRESHOLD := by
    show (1:ℚ)/2 < LOW_CONFIDENCE_THRESHOLD
    norm_num [LOW_CONFIDENCE_THRESHOLD]
  have hstep1 : stepRound envC2 qC2 ⟨[petOne], [1/2], [1/2], false⟩ 1 =
      some ⟨[petOne, petThree], [1/2, 9/10], [1/2, 1/2], false⟩ := rfl
  have hb1 : bestScore ⟨[petOne, petThree], [1/2, 9/10], [1/2, 1/2], false⟩ <
      LOW_CONFIDENCE_THRESHOLD := by
    have hv : bestScore ⟨[petOne, petThree], [1/2, 9/10], [1/2, 1/2], false⟩ =
        max ((1:ℚ)/2) (1/2) := rfl
    rw [hv, max_self]
    norm_num [LOW_CONFIDENCE_THRESHOLD]
  have hstep2 : stepRound envC2 qC2
      ⟨[petOne, petThree], [1/2, 9/10], [1/2, 1/2], false⟩ 2 = none := rfl
  have hfs : finalState envC2 qC2 =
      (⟨[petOne, petThree], [1/2, 9/10], [1/2, 1/2], false⟩, 2) :=
    calc agentLoopAux envC2 qC2 LOW_CONFIDENCE_THRESHOLD MAX_AGENT_ROUNDS
          ⟨[petOne], [1/2], [1/2], false⟩ 0
        = agentLoopAux envC2 qC2 LOW_CONFIDENCE_THRESHOLD 1
            ⟨[petOne, petThree], [1/2, 9/10], [1/2, 1/2], false⟩ 1 :=
          agentLoopAux_go envC2 qC2 LOW_CONFIDENCE_THRESHOLD 1
            ⟨[petOne], [1/2], [1/2], false⟩ 0
            ⟨[petOne, petThree], [1/2, 9/10], [1/2, 1/2], false⟩ hb0 hstep1
      _ = (⟨[petOne, petThree], [1/2, 9/10], [1/2, 1/2], false⟩, 2) :=
          agentLoopAux_brk envC2 qC2 LOW_CONFIDENCE_THRESHOLD 0
            ⟨[petOne, petThree], [1/2, 9/10], [1/2, 1/2], false⟩ 1 hb1 hstep2
  have hsort : sortIdxDesc
      (fun i => ([1/2, 1/2] : List ℚ).getD i 0) [0, 1] = [0, 1] := by
    show (if ((1:ℚ)/2 ≤ 1/2) then [0, 1] else [1, 0]) = [0, 1]
    rw [if_pos le_rfl]
  have hrk : rankedIndices envC2 qC2 = [0, 1] := by
    simp only [rankedIndices, hfs]
    show (sortIdxDesc (fun i => ([1/2, 1/2] : List ℚ).getD i 0)
      [0, 1]).take 2 = [0, 1]
    rw [hsort]
    rfl
  obtain ⟨h1, h2, -, -⟩ := match_pets_core_ne envC2 qC2 rfl
  have hmap : ((match_pets_core envC2 qC2).2.2.1.map
      (fun i => (match_pets_core envC2 qC2).2.1.sims.getD i 0)) =
        [1/2, 9/10] := by
    rw [h1, h2, hrk, hfs]
    rfl
  refine ⟨fun _ _ => rfl, hmap, ?_⟩
  rw [hmap]
  intro hp
  have := (List.pairwise_cons.mp hp).1 (9/10) (by simp)
  norm_num at this

/-- C8 (counterexample): `petA` and `petB` differ in an attribute (`sex`)
yet produce identical fallback text; and with `envC8`/`qC8`, where the model
returns a whitespace-only explanation (truthy in Python), the returned
`MatchResult.explanation` is the empty string. -/
theorem fallback_collision_and_empty_explanation :
    petA.sex ≠ petB.sex ∧
    pet_fallback_reasoning petA = pet_fallback_reasoning petB ∧
    (match_pets envC8 qC8).results.map MatchResult.explanation = [""] := by
  refine ⟨by decide, by decide, ?_⟩
  have hc1 : clamp01 ((4:ℚ)/5) = 4/5 :=
    clamp01_of_bounds _ (by norm_num) (by norm_num)
  have hsap : score_all_pets (envC8.score 0) [petA] = ([4/5], true) := by
    calc score_all_pets (envC8.score 0) [petA]
        = (fillScores [some (clamp01 ((4:ℚ)/5))], true) := rfl
      _ = (fillScores [some ((4:ℚ)/5)], true) := by rw [hc1]
      _ = ([4/5], true) := rfl
  have hs0 : initialState envC8 qC8 = ⟨[petA], [9/10], [4/5], true⟩ := by
    calc initialState envC8 qC8
        = ⟨[petA], [9/10], (score_all_pets (envC8.score 0) [petA]).1,
            (score_all_pets (envC8.score 0) [petA]).2⟩ := rfl
      _ = ⟨[petA], [9/10], [4/5], true⟩ := by rw [hsap]
  have hbest : ¬ bestScore ⟨[petA], [9/10], [4/5], true⟩ <
      LOW_CONFIDENCE_THRESHOLD := by
    show ¬ ((4:ℚ)/5 < LOW_CONFIDENCE_THRESHOLD)
    norm_num [LOW_CONFIDENCE_THRESHOLD]
  have hfs : finalState envC8 qC8 = (⟨[petA], [9/10], [4/5], true⟩, 0) := by
    rw [finalState, hs0]
    exact agentLoopAux_stop envC8 qC8 LOW_CONFIDENCE_THRESHOLD
      MAX_AGENT_ROUNDS _ 0 hbest
  have hrk : rankedIndices envC8 qC8 = [0] := by
    simp only [rankedIndices, hfs]
    rfl
  obtain ⟨-, -, -, h4⟩ := match_pets_core_ne envC8 qC8 rfl
  have hres : (match_pets envC8 qC8).results =
      buildResults envC8 ⟨[petA], [9/10], [4/5], true⟩ 0 [0] := by
    rw [match_pets, h4, hrk, hfs]
  rw [hres]
  rfl

end Matchmaker
